import Mathlib

/-
  Verification development for the otel-instrumentation-test repository: a shallow
  embedding, in Lean 4, of the reactive telemetry collection and assertion engine
  (buffer, matcher predicates, assertion builders, verifiers and the
  wait-until-satisfied coordinator), together with theorems settling the claims of
  the specification against the code.

  Modelling conventions, used throughout:
  - TypeScript fields of type `T | undefined` become `Option T` (`none` = absent).
  - The `AttributeValue` fields, declared `T | null | undefined` in the source,
    become `JsField T`, which distinguishes `undefined`, `null` and a value.
  - JavaScript numbers are modelled as `Int` where the source only ever stores
    integers (attribute intValue, counts, flags) and as `Rat` where fractional
    values occur (doubleValue, sum, min, max, bounds).  The code under
    verification uses numbers only for strict (in)equality and truthiness tests,
    so this choice does not affect any verified behaviour.
  - JavaScript arrays that the source compares with strict (in)equality `!==`
    become `ArrRef`, which carries an object identity alongside the elements;
    arrays that are only ever inspected element-wise stay plain `List`s.
  - Methods become functions taking the receiver state explicitly; `Promise` and
    rxjs subscription behaviour is embedded as a function over an explicit trace
    of pre-timeout buffer-append events (see `Collector.waitForAssertions`).
-/

/-- JavaScript optional field state: a field can be absent (`undefined`), `null`,
or hold a value.  Mirrors the source type `T | null | undefined` used by the
fields of the `AttributeValue` interface. -/
inductive JsField (α : Type) where
  | undef : JsField α
  | null : JsField α
  | val : α → JsField α
deriving DecidableEq

/-- JavaScript truthiness of a string-typed optional field: `undefined`, `null`
and the empty string are falsy, every other string is truthy. -/
def JsField.truthyStr : JsField String → Bool
  | .val s => decide (s ≠ "")
  | _ => false

/-- JavaScript test `x !== undefined`: true for `null` and for any value. -/
def JsField.isDef {α : Type} : JsField α → Bool
  | .undef => false
  | _ => true

/-- JavaScript strict equality `===` between two fields of the same primitive
type: `undefined === undefined` and `null === null` hold, mixed presence states
do not, and two present values compare by value. -/
def JsField.strictEq {α : Type} [DecidableEq α] : JsField α → JsField α → Bool
  | .undef, .undef => true
  | .null, .null => true
  | .val a, .val b => decide (a = b)
  | _, _ => false

/-- The OTLP attribute value union (`AttributeValue`, src/modules/shared/models):
at most one variant is meant to be populated and unused variants are left
`undefined` (or `null`).  The `arrayValue`, `kvlistValue` and `bytesValue`
variants of the source interface are never read by any code verified here, so
they are not carried. -/
structure AttributeValue where
  stringValue : JsField String := .undef
  boolValue : JsField Bool := .undef
  intValue : JsField Int := .undef
  doubleValue : JsField Rat := .undef
deriving DecidableEq

/-- A key/value attribute (`Attribute`, src/modules/shared/models). -/
structure Attribute where
  key : String
  value : AttributeValue
deriving DecidableEq

/-- Embeds `hasAttributeValue` (src/modules/shared/utils/has-attribute-value.util.ts).
The first branch guards on JavaScript truthiness of `stringValue` on both sides
(`if (actual.stringValue && expected.stringValue)`), while the `intValue` and
`boolValue` branches guard on `!== undefined`.  The private
`attributeValuesMatch` of `SpanAssertionVerifier` (span.assertion-verifier.ts,
lines 110-121) has the identical body and is embedded by this same function. -/
def hasAttributeValue (actual expected : AttributeValue) : Bool :=
  if actual.stringValue.truthyStr && expected.stringValue.truthyStr then
    actual.stringValue.strictEq expected.stringValue
  else if actual.intValue.isDef && expected.intValue.isDef then
    actual.intValue.strictEq expected.intValue
  else if actual.boolValue.isDef && expected.boolValue.isDef then
    actual.boolValue.strictEq expected.boolValue
  else
    false

/-- Embeds `hasAttribute` (src/modules/shared/utils/has-attribute.util.ts): some
attribute of the list has the expected key and a matching value. -/
def hasAttribute (attributes : List Attribute) (expectedAttribute : Attribute) : Bool :=
  attributes.any fun attr =>
    decide (attr.key = expectedAttribute.key) &&
      hasAttributeValue attr.value expectedAttribute.value

/-- Modelled from the spec: the span kind enum ("internal/server/client/producer/
consumer", with the OTLP numbering in which 0 is the unspecified kind).  The
`traces/enums` source file is not among the provided sources; only its uses are. -/
inductive SpanKind where
  | unspecified
  | internal
  | server
  | client
  | producer
  | consumer
deriving DecidableEq

/-- Numeric value of a span kind, used for the JavaScript truthiness test
`if (this.model.kind ...)` in the matcher. -/
def SpanKind.toNat : SpanKind → Nat
  | .unspecified => 0
  | .internal => 1
  | .server => 2
  | .client => 3
  | .producer => 4
  | .consumer => 5

/-- Modelled from the spec: the span status code enum (OK / ERROR / UNSET); the
`traces/enums` source file is not among the provided sources. -/
inductive SpanStatusCode where
  | unset
  | ok
  | error
deriving DecidableEq

/-- A span status (`SpanStatus`, span-status.model.ts): a code and an optional
message. -/
structure SpanStatus where
  code : SpanStatusCode
  message : Option String := none
deriving DecidableEq

/-- A span event (`Event`, event.model.ts).  Timestamps are 64-bit fixed-point
nanosecond values represented as decimal strings (`Fixed64`). -/
structure Event where
  timeUnixNano : String
  name : String
  attributes : List Attribute
  droppedAttributesCount : Nat
deriving DecidableEq

/-- A span link (`Link`, link.model.ts). -/
structure Link where
  traceId : String
  spanId : String
  traceState : Option String := none
  attributes : List Attribute
  droppedAttributesCount : Nat
deriving DecidableEq

/-- A decoded span (`Span`, span.model.ts).  Identifier fields declared
`string | Uint8Array` in the source are modelled as strings (the byte form is
never produced nor read by the verified code), and `Fixed64` timestamps as
decimal strings, following the data model. -/
structure Span where
  traceId : String
  spanId : String
  traceState : Option String := none
  parentSpanId : Option String := none
  name : String
  kind : SpanKind
  startTimeUnixNano : String
  endTimeUnixNano : String
  attributes : List Attribute
  droppedAttributesCount : Nat
  events : List Event
  droppedEventsCount : Nat
  links : List Link
  droppedLinksCount : Nat
  status : SpanStatus
  resourceAttributes : Option (List Attribute) := none
deriving DecidableEq

/-- Embeds the `Partial<Span>` schema accumulated by `SpanAssertion` and read by
`SpanAssertionVerifier.matchesSpan`.  Only `name`, `kind`, `status`,
`attributes` and `resourceAttributes` are ever set by the builders or read by
the matcher, so only those fields are carried; `none` means the field is absent
and imposes no constraint. -/
structure SpanSchema where
  name : Option String := none
  kind : Option SpanKind := none
  status : Option SpanStatus := none
  attributes : Option (List Attribute) := none
  resourceAttributes : Option (List Attribute) := none
deriving DecidableEq

/-- Embeds the private `hasAttribute` of `SpanAssertionVerifier`
(span.assertion-verifier.ts, lines 96-100): some attribute of the span has the
expected key and a matching value; the value comparison `attributeValuesMatch`
is textually identical to the shared `hasAttributeValue`. -/
def SpanAssertionVerifier.hasAttr (span : Span) (expectedAttr : Attribute) : Bool :=
  span.attributes.any fun attr =>
    decide (attr.key = expectedAttr.key) && hasAttributeValue attr.value expectedAttr.value

/-- Embeds the private `hasResourceAttribute` of `SpanAssertionVerifier`
(span.assertion-verifier.ts, lines 102-108): `span.resourceAttributes?.some(...)
?? false`. -/
def SpanAssertionVerifier.hasResourceAttr (span : Span) (expectedAttr : Attribute) : Bool :=
  match span.resourceAttributes with
  | some resAttrs =>
    resAttrs.any fun attr =>
      decide (attr.key = expectedAttr.key) && hasAttributeValue attr.value expectedAttr.value
  | none => false

/-- Embeds `SpanAssertionVerifier.matchesSpan` (span.assertion-verifier.ts,
lines 66-94).  Every schema field is guarded by JavaScript truthiness
(`if (this.model.name && ...)`), so an absent field, an empty string name and
the numerically zero kind impose no constraint; the attribute lists are
universally quantified over the schema and existentially over the span; each
listed semantic attribute key must appear on some span attribute. -/
def SpanAssertionVerifier.matchesSpan (model : SpanSchema) (semanticAttributes : List String)
    (span : Span) : Bool :=
  if (match model.name with
      | some n => decide (n ≠ "") && decide (span.name ≠ n)
      | none => false) then false
  else if (match model.kind with
      | some k => decide (k.toNat ≠ 0) && decide (span.kind ≠ k)
      | none => false) then false
  else if (match model.status with
      | some st => decide (span.status.code ≠ st.code)
      | none => false) then false
  else if (match model.attributes with
      | some attrs => attrs.any fun expectedAttr => ! SpanAssertionVerifier.hasAttr span expectedAttr
      | none => false) then false
  else if (match model.resourceAttributes with
      | some attrs =>
        attrs.any fun expectedAttr => ! SpanAssertionVerifier.hasResourceAttr span expectedAttr
      | none => false) then false
  else if decide (0 < semanticAttributes.length) &&
      (semanticAttributes.any fun expectedAttr =>
        ! span.attributes.any fun attr => decide (attr.key = expectedAttr)) then false
  else true

/-- The state of a finalized `SpanAssertionVerifier` (span.assertion-verifier.ts,
lines 7-13): the partial span model, the required semantic attribute keys, the
expected exact match count and the stack captured at the `assert()` call site. -/
structure SpanAssertionVerifierData where
  model : SpanSchema
  semanticAttributes : List String
  expectedCount : Nat
  originalStack : Option String := none
deriving DecidableEq

/-- Embeds the pass/fail outcome of `SpanAssertionVerifier.verify`
(span.assertion-verifier.ts, lines 15-31): the spans matching the model are
counted and `assert.strictEqual(matchingSpans.length, this.expectedCount)`
passes exactly when the two are equal; the catch block only rewrites the stack
of the thrown `AssertionError` and rethrows, so it does not affect the outcome. -/
def SpanAssertionVerifier.verifyPasses (v : SpanAssertionVerifierData) (spans : List Span) : Bool :=
  decide
    ((spans.filter fun span =>
      SpanAssertionVerifier.matchesSpan v.model v.semanticAttributes span).length = v.expectedCount)

/-- A JavaScript array object: `refId` models the object identity that the
strict (in)equality `!==` of the source compares when both sides are arrays,
`elems` the contents.  Two array references are the same object exactly when
their identities coincide. -/
structure ArrRef (α : Type) where
  refId : Nat
  elems : List α
deriving DecidableEq

/-- JavaScript `a !== b` where both sides are declared array-or-undefined:
`undefined !== undefined` is false, an array never strictly equals `undefined`,
and two arrays compare by object identity. -/
def arrStrictNe {α : Type} (a b : Option (ArrRef α)) : Bool :=
  match a, b with
  | none, none => false
  | some x, some y => decide (x.refId ≠ y.refId)
  | _, _ => true

/-- JavaScript truthiness of an optional integer-valued number field: absent and
zero are falsy. -/
def optIntTruthy : Option Int → Bool
  | some n => decide (n ≠ 0)
  | none => false

/-- JavaScript truthiness of an optional fractional number field: absent and
zero are falsy. -/
def optRatTruthy : Option Rat → Bool
  | some q => decide (q ≠ 0)
  | none => false

/-- JavaScript truthiness of an optional string field: absent and the empty
string are falsy. -/
def optStrTruthy : Option String → Bool
  | some s => decide (s ≠ "")
  | none => false

/-- A histogram data point (`HistogramDataPoint`,
histogram-data-point.model.ts); every field is optional.  `bucketCounts` and
`explicitBounds` are arrays the matcher compares with `!==`, hence `ArrRef`.
The `exemplars` field is never read by the verified code and is not carried. -/
structure HistogramDataPoint where
  attributes : Option (List Attribute) := none
  startTimeUnixNano : Option String := none
  timeUnixNano : Option String := none
  count : Option Int := none
  sum : Option Rat := none
  bucketCounts : Option (ArrRef Int) := none
  explicitBounds : Option (ArrRef Rat) := none
  flags : Option Int := none
  min : Option Rat := none
  max : Option Rat := none
deriving DecidableEq

/-- A gauge or sum data point (`NumberDataPoint`, number-data-point.model.ts).
The `exemplars` field is never read by the verified code and is not carried. -/
structure NumberDataPoint where
  attributes : List Attribute
  startTimeUnixNano : Option String := none
  timeUnixNano : Option String := none
  asDouble : JsField Rat := .undef
  asInt : Option Int := none
  flags : Option Int := none
deriving DecidableEq

/-- A summary data point (`SummaryDataPoint`, summary-data-point.model.ts).
The `quantileValues` field is never read by the verified code and is not
carried. -/
structure SummaryDataPoint where
  attributes : Option (List Attribute) := none
  startTimeUnixNano : Option Rat := none
  timeUnixNano : Option String := none
  count : Option Int := none
  sum : Option Rat := none
  flags : Option Int := none
deriving DecidableEq

/-- The `DataPoint` union of base-metric.verifier.ts:
`NumberDataPoint | HistogramDataPoint | SummaryDataPoint`. -/
inductive DataPoint where
  | number (p : NumberDataPoint)
  | histogram (p : HistogramDataPoint)
  | summary (p : SummaryDataPoint)
deriving DecidableEq

/-- JavaScript property access `dataPoint.count` on the union: variants whose
interface lacks the property yield `undefined`. -/
def DataPoint.count : DataPoint → Option Int
  | .number _ => none
  | .histogram p => p.count
  | .summary p => p.count

/-- JavaScript property access `dataPoint.sum` on the union. -/
def DataPoint.sum : DataPoint → Option Rat
  | .number _ => none
  | .histogram p => p.sum
  | .summary p => p.sum

/-- JavaScript property access `dataPoint.bucketCounts` on the union. -/
def DataPoint.bucketCounts : DataPoint → Option (ArrRef Int)
  | .histogram p => p.bucketCounts
  | _ => none

/-- JavaScript property access `dataPoint.explicitBounds` on the union. -/
def DataPoint.explicitBounds : DataPoint → Option (ArrRef Rat)
  | .histogram p => p.explicitBounds
  | _ => none

/-- JavaScript property access `dataPoint.flags` on the union. -/
def DataPoint.flags : DataPoint → Option Int
  | .number p => p.flags
  | .histogram p => p.flags
  | .summary p => p.flags

/-- JavaScript property access `dataPoint.min` on the union. -/
def DataPoint.min : DataPoint → Option Rat
  | .histogram p => p.min
  | _ => none

/-- JavaScript property access `dataPoint.max` on the union. -/
def DataPoint.max : DataPoint → Option Rat
  | .histogram p => p.max
  | _ => none

/-- JavaScript property access `dataPoint.attributes` on the union
(`attributes` is required on `NumberDataPoint` and optional on the others). -/
def DataPoint.attributes : DataPoint → Option (List Attribute)
  | .number p => some p.attributes
  | .histogram p => p.attributes
  | .summary p => p.attributes

/-- A gauge payload (`Gauge`, gauge.model.ts). -/
structure Gauge where
  dataPoints : List NumberDataPoint
deriving DecidableEq

/-- A sum payload (`Sum`, sum model).  The aggregation temporality enum is
modelled by its numeric value. -/
structure MetricSum where
  dataPoints : List NumberDataPoint
  aggregationTemporality : Int
  isMonotonic : JsField Bool := .undef
deriving DecidableEq

/-- A histogram payload (`Histogram`, histogram.model.ts). -/
structure Histogram where
  dataPoints : List HistogramDataPoint
  aggregationTemporality : Option Int := none
deriving DecidableEq

/-- A summary payload (`Summary`). -/
structure Summary where
  dataPoints : List SummaryDataPoint
deriving DecidableEq

/-- A decoded metric (`Metric`, metric.model.ts).  `resourceAttributes` is an
array the matcher compares with `!==`, hence `ArrRef`.  The
`exponentialHistogram` payload is never consulted by `BaseMetricVerifier.matches`
(the source has no branch for it) nor set by any builder, and is not carried. -/
structure Metric where
  name : String
  description : Option String := none
  unit : Option String := none
  gauge : Option Gauge := none
  sum : Option MetricSum := none
  histogram : Option Histogram := none
  summary : Option Summary := none
  resourceAttributes : Option (ArrRef Attribute) := none
deriving DecidableEq

/-- Embeds the `Partial<Metric>` schema accumulated by `BaseMetricAssertion`
and read by `BaseMetricVerifier.matches`; `none` means the field is absent. -/
structure MetricSchema where
  name : Option String := none
  description : Option String := none
  unit : Option String := none
  gauge : Option Gauge := none
  sum : Option MetricSum := none
  histogram : Option Histogram := none
  summary : Option Summary := none
  resourceAttributes : Option (ArrRef Attribute) := none
deriving DecidableEq

/-- Embeds `HistogramVerifier.matchesDataPoint` (histogram.verifier.ts, lines
6-52).  `schema` is `this.schema.histogram?.dataPoints[0]` (undefined when the
histogram payload is absent or has no data points).  Every numeric guard tests
the schema field with JavaScript truthiness, so a zero constraint is skipped;
the `bucketCounts` and `explicitBounds` guards compare array object identity
(`!==`); the schema attribute list is checked existentially via `hasAttribute`;
each semantic attribute key must appear on some data point attribute. -/
def HistogramVerifier.matchesDataPoint (schemaMetric : MetricSchema)
    (semanticAttributes : List String) (dataPoint : DataPoint) : Bool :=
  let schema : Option HistogramDataPoint := schemaMetric.histogram.bind fun h => h.dataPoints.head?
  if optIntTruthy (schema.bind fun s => s.count) &&
      decide (dataPoint.count ≠ schema.bind fun s => s.count) then false
  else if optRatTruthy (schema.bind fun s => s.sum) &&
      decide (dataPoint.sum ≠ schema.bind fun s => s.sum) then false
  else if (schema.bind fun s => s.bucketCounts).isSome &&
      arrStrictNe dataPoint.bucketCounts (schema.bind fun s => s.bucketCounts) then false
  else if (schema.bind fun s => s.explicitBounds).isSome &&
      arrStrictNe dataPoint.explicitBounds (schema.bind fun s => s.explicitBounds) then false
  else if optIntTruthy (schema.bind fun s => s.flags) &&
      decide (dataPoint.flags ≠ schema.bind fun s => s.flags) then false
  else if optRatTruthy (schema.bind fun s => s.min) &&
      decide (dataPoint.min ≠ schema.bind fun s => s.min) then false
  else if optRatTruthy (schema.bind fun s => s.max) &&
      decide (dataPoint.max ≠ schema.bind fun s => s.max) then false
  else if (match schema.bind fun s => s.attributes with
      | some l => decide (l.length ≠ 0)
      | none => false) &&
      ! (match dataPoint.attributes with
      | some l => decide (l.length ≠ 0)
      | none => false) then false
  else if (match schema.bind fun s => s.attributes with
      | some attrs =>
        attrs.any fun expectedAttr => ! hasAttribute (dataPoint.attributes.getD []) expectedAttr
      | none => false) then false
  else if decide (0 < semanticAttributes.length) &&
      (semanticAttributes.any fun expectedAttr =>
        ! ((dataPoint.attributes.map fun attrs =>
            attrs.any fun attr => decide (attr.key = expectedAttr)).getD false)) then false
  else true

/-- Embeds `BaseMetricVerifier.matches` (base-metric.verifier.ts, lines 29-75),
instantiated — as in the source, where `HistogramVerifier` is the only concrete
subclass — with an abstract `matchesDataPoint` over the data point union.
Points of note, all mirrored from the source: `name`, `description` and `unit`
are guarded by string truthiness; `resourceAttributes` is guarded by array
truthiness and compared with strict inequality `!==` (object identity, line 39);
each payload branch returns directly, so that the trailing existential resource
attribute loop (lines 68-72) is reached only when no payload is set on the
schema. -/
def BaseMetricVerifier.matches (mdp : DataPoint → Bool) (schema : MetricSchema)
    (metric : Metric) : Bool :=
  if (match schema.name with
      | some n => decide (n ≠ "") && decide (metric.name ≠ n)
      | none => false) then false
  else if (match schema.description with
      | some d => decide (d ≠ "") && decide (metric.description ≠ some d)
      | none => false) then false
  else if (match schema.unit with
      | some u => decide (u ≠ "") && decide (metric.unit ≠ some u)
      | none => false) then false
  else if schema.resourceAttributes.isSome &&
      arrStrictNe metric.resourceAttributes schema.resourceAttributes then false
  else if schema.gauge.isSome && ! metric.gauge.isSome then false
  else if schema.gauge.isSome && metric.gauge.isSome then
    (metric.gauge.getD { dataPoints := [] }).dataPoints.any fun p => mdp (.number p)
  else if schema.histogram.isSome && ! metric.histogram.isSome then false
  else if schema.histogram.isSome && metric.histogram.isSome then
    (metric.histogram.getD { dataPoints := [] }).dataPoints.any fun p => mdp (.histogram p)
  else if schema.sum.isSome && ! metric.sum.isSome then false
  else if schema.sum.isSome && metric.sum.isSome then
    (metric.sum.getD { dataPoints := [], aggregationTemporality := 0 }).dataPoints.any
      fun p => mdp (.number p)
  else if schema.summary.isSome && ! metric.summary.isSome then false
  else if schema.summary.isSome && metric.summary.isSome then
    (metric.summary.getD { dataPoints := [] }).dataPoints.any fun p => mdp (.summary p)
  else if (match schema.resourceAttributes with
      | some r =>
        r.elems.any fun expectedAttr =>
          ! hasAttribute ((metric.resourceAttributes.map ArrRef.elems).getD []) expectedAttr
      | none => false) then false
  else true

/-- The matcher of the concrete `HistogramVerifier`: `BaseMetricVerifier.matches`
with `matchesDataPoint` dispatching to `HistogramVerifier.matchesDataPoint`. -/
def HistogramVerifier.matches (schema : MetricSchema) (semanticAttributes : List String)
    (metric : Metric) : Bool :=
  BaseMetricVerifier.matches
    (HistogramVerifier.matchesDataPoint schema semanticAttributes) schema metric

/-- Embeds the pass/fail outcome of `BaseMetricVerifier.verify`
(base-metric.verifier.ts, lines 15-27) for the histogram verifier: the metrics
matching the schema are counted and `assert.ok(matchingMetrics.length > 0)`
passes exactly when at least one metric matches; the catch block only rewrites
the stack of the thrown error and rethrows, so it does not affect the outcome. -/
def HistogramVerifier.verifyPasses (schema : MetricSchema) (semanticAttributes : List String)
    (metrics : List Metric) : Bool :=
  decide (0 < (metrics.filter fun m => HistogramVerifier.matches schema semanticAttributes m).length)

/-- Embeds `AbstractTelemetryCollector.collect` on the buffer component of the
collector state (instrumentation-scope sources, lines 72-75):
`this.telemetryData.push(...data)` appends the batch in order.  The
accompanying `updateSubject.next()` notification is modelled by the event traces
of `Collector.waitForAssertions` below. -/
def AbstractTelemetryCollector.collect {T : Type} (buffer : List T) (data : List T) : List T :=
  buffer ++ data

/-- Embeds `AbstractTelemetryCollector.retrieve` (lines 88-90): returns the
buffer. -/
def AbstractTelemetryCollector.retrieve {T : Type} (buffer : List T) : List T :=
  buffer

/-- Embeds `AbstractTelemetryCollector.clear` (lines 102-104): resets the buffer
to empty. -/
def AbstractTelemetryCollector.clear {T : Type} (_buffer : List T) : List T :=
  []

/-- Outcome of one call of the assertion function passed to `waitForAssertions`:
it returns normally, throws an `AssertionError` (captured by the coordinator as
the last failure), or throws some other error (which the catch blocks inspect
and do not capture). -/
inductive EvalOutcome (F : Type) where
  | pass
  | failAssertion (failure : F)
  | failOther
deriving DecidableEq

/-- Whether an evaluation outcome is a success. -/
def EvalOutcome.isPass {F : Type} : EvalOutcome F → Bool
  | .pass => true
  | _ => false

/-- One pre-timeout buffer-append notification delivered to a pending wait:
`batch` is the data appended by the `collect` call that fired the notification,
`time` the number of milliseconds after the wait began at which it arrived.  A
trace `events` lists, in order, exactly the notifications that fire before the
timeout timer; theorems state the timing hypotheses they need explicitly. -/
structure WaitEvent (T : Type) where
  time : Nat
  batch : List T
deriving DecidableEq

/-- How a `waitForAssertions` promise settles, together with the time (in
milliseconds after the wait began) at which it does: resolution with the buffer
passed to `resolve`, rejection with the captured `AssertionError`, or rejection
with the generic timeout `Error` message. -/
inductive WaitResult (T F : Type) where
  | resolved (data : List T) (time : Nat)
  | rejectedAssertion (failure : F) (time : Nat)
  | rejectedTimeout (message : String) (time : Nat)
deriving DecidableEq

/-- The settle time of a wait result. -/
def WaitResult.endTime {T F : Type} : WaitResult T F → Nat
  | .resolved _ t => t
  | .rejectedAssertion _ t => t
  | .rejectedTimeout _ t => t

/-- The generic timeout message of `waitForAssertions` (line 172 of the
collector source): it reports the configured timeout and the number of records
currently buffered. -/
def Collector.timeoutMessage (timeoutMs : Nat) (count : Nat) : String :=
  s!"Assertion timeout after {timeoutMs}ms. Current data count: {count}"

/-- Embeds the subscription callback loop of `waitForAssertions` (lines
149-175): each pre-timeout notification appends its batch and re-runs the
assertion function against the then-current buffer; a success unsubscribes and
resolves at that event, an `AssertionError` replaces the remembered failure and
the subscription continues, any other error leaves it unchanged.  When the
event list is exhausted the timeout timer fires at `timeoutMs`: it unsubscribes
and rejects with the remembered failure if there is one, and otherwise with the
generic timeout message over the final buffer size. -/
def Collector.waitLoop {T F : Type} (check : List T → EvalOutcome F) (timeoutMs : Nat) :
    List T → Option F → List (WaitEvent T) → WaitResult T F
  | buffer, lastFailure, [] =>
    match lastFailure with
    | some f => .rejectedAssertion f timeoutMs
    | none => .rejectedTimeout (Collector.timeoutMessage timeoutMs buffer.length) timeoutMs
  | buffer, lastFailure, e :: rest =>
    match check (buffer ++ e.batch) with
    | .pass => .resolved (buffer ++ e.batch) e.time
    | .failAssertion f => Collector.waitLoop check timeoutMs (buffer ++ e.batch) (some f) rest
    | .failOther => Collector.waitLoop check timeoutMs (buffer ++ e.batch) lastFailure rest

/-- Embeds `AbstractTelemetryCollector.waitForAssertions` (lines 135-176) over
an explicit trace of pre-timeout append notifications: the assertion function is
first run against the current buffer and a success resolves immediately (before
any subscription or timer exists); otherwise an `AssertionError` is remembered
and the subscription loop processes the trace. -/
def Collector.waitForAssertions {T F : Type} (check : List T → EvalOutcome F) (initial : List T)
    (events : List (WaitEvent T)) (timeoutMs : Nat) : WaitResult T F :=
  match check initial with
  | .pass => .resolved initial 0
  | .failAssertion f => Collector.waitLoop check timeoutMs initial (some f) events
  | .failOther => Collector.waitLoop check timeoutMs initial none events

/-- The buffer contents seen by evaluation number `k` of a wait that started on
`initial`: evaluation 0 is the immediate one, and evaluation `k + 1` happens
after the batch of event `k` has been appended. -/
def Collector.bufferAt {T : Type} (initial : List T) (events : List (WaitEvent T))
    (k : Nat) : List T :=
  initial ++ ((events.take k).map WaitEvent.batch).flatten

/-- The time at which evaluation number `k` of a wait runs: the immediate
evaluation runs at time 0 and evaluation `k + 1` at the time of event `k`. -/
def Collector.evalTime {T : Type} (events : List (WaitEvent T)) : Nat → Nat
  | 0 => 0
  | k + 1 => ((events.get? k).map WaitEvent.time).getD 0

/-- The failure remembered by the coordinator after processing a trace: the
`failedAssertion` variable of the source, updated by every evaluation that
throws an `AssertionError` and left alone by the others. -/
def Collector.lastCapturedFailure {T F : Type} (check : List T → EvalOutcome F) :
    Option F → List T → List (WaitEvent T) → Option F
  | lastFailure, _, [] => lastFailure
  | lastFailure, buffer, e :: rest =>
    Collector.lastCapturedFailure check
      (match check (buffer ++ e.batch) with
       | .failAssertion f => some f
       | _ => lastFailure)
      (buffer ++ e.batch) rest

/-- The failure remembered over a whole wait, immediate evaluation included. -/
def Collector.lastFailure {T F : Type} (check : List T → EvalOutcome F) (initial : List T)
    (events : List (WaitEvent T)) : Option F :=
  Collector.lastCapturedFailure check
    (match check initial with
     | .failAssertion f => some f
     | _ => none)
    initial events

/-- Embeds the assertion function `assertAll` passes to `waitForAssertions`
(span.verifier.ts, lines 180-186): every pending verifier runs in order against
the spans and the first failing one throws its `AssertionError` (modelled as the
failing verifier itself, which determines the error); if none fails the
function returns normally. -/
def SpanVerifier.runAssertions (assertions : List SpanAssertionVerifierData)
    (spans : List Span) : EvalOutcome SpanAssertionVerifierData :=
  match assertions.find? fun a => ! SpanAssertionVerifier.verifyPasses a spans with
  | some a => .failAssertion a
  | none => .pass

/-- The argument type `string | number | boolean` of the builder attribute
methods; a number carries its exact value so that the `Number.isInteger`
dispatch of `toAttributeValue` can be expressed. -/
inductive JsPrim where
  | str (s : String)
  | num (n : Rat)
  | bool (b : Bool)
deriving DecidableEq

/-- Embeds the private `toAttributeValue` (span.assertion.ts, lines 465-479;
base-metric assertion, lines 159-173, identical): strings become `stringValue`,
integral numbers `intValue`, fractional numbers `doubleValue`, booleans
`boolValue`.  The trailing throw branch is unreachable for the typed argument. -/
def toAttributeValue : JsPrim → AttributeValue
  | .str s => { stringValue := .val s }
  | .num n => if n.den = 1 then { intValue := .val n.num } else { doubleValue := .val n }
  | .bool b => { boolValue := .val b }

/-- The mutable state of a `SpanAssertion` builder (span.assertion.ts, lines
64-72): the accumulated partial schema, the semantic attribute list (overridden
to the three HTTP keys by `HttpSpanAssertion`) and the expected count fixed at
construction. -/
structure SpanAssertionState where
  schema : SpanSchema
  semanticAttributes : List String
  expectedCount : Nat
deriving DecidableEq

/-- Embeds `SpanAssertion.withName` (lines 104-108). -/
def SpanAssertion.withName (st : SpanAssertionState) (name : String) : SpanAssertionState :=
  { st with schema := { st.schema with name := some name } }

/-- Embeds `SpanAssertion.withKind` (lines 143-147). -/
def SpanAssertion.withKind (st : SpanAssertionState) (kind : SpanKind) : SpanAssertionState :=
  { st with schema := { st.schema with kind := some kind } }

/-- Embeds `SpanAssertion.withStatus` (lines 180-184). -/
def SpanAssertion.withStatus (st : SpanAssertionState) (status : SpanStatus) : SpanAssertionState :=
  { st with schema := { st.schema with status := some status } }

/-- Embeds `SpanAssertion.withAttribute` (lines 215-222): the attribute list is
created on first use and the new attribute is pushed at the end. -/
def SpanAssertion.withAttribute (st : SpanAssertionState) (key : String)
    (value : JsPrim) : SpanAssertionState :=
  { st with schema :=
    { st.schema with
      attributes := some (st.schema.attributes.getD [] ++
        [{ key := key, value := toAttributeValue value }]) } }

/-- Embeds `SpanAssertion.withResourceAttribute` (lines 315-325). -/
def SpanAssertion.withResourceAttribute (st : SpanAssertionState) (key : String)
    (value : JsPrim) : SpanAssertionState :=
  { st with schema :=
    { st.schema with
      resourceAttributes := some (st.schema.resourceAttributes.getD [] ++
        [{ key := key, value := toAttributeValue value }]) } }

/-- The state of the parent `SpanVerifier` (span.verifier.ts): its pending
assertion list. -/
structure SpanVerifierState where
  assertions : List SpanAssertionVerifierData
deriving DecidableEq

/-- Embeds `SpanAssertion.assert` (span.assertion.ts, lines 439-451): the call
stack is captured, a `SpanAssertionVerifier` is constructed from the accumulated
schema, semantic attribute list, expected count and captured stack, pushed onto
the pending list of the parent verifier, and the parent is returned. -/
def SpanAssertion.assert (st : SpanAssertionState) (originalStack : String)
    (parent : SpanVerifierState) : SpanVerifierState :=
  { parent with assertions := parent.assertions ++
      [{ model := st.schema, semanticAttributes := st.semanticAttributes,
         expectedCount := st.expectedCount, originalStack := some originalStack }] }

/-- Embeds `SpanVerifier.toHaveSpanWithCount` (span.verifier.ts, lines
139-141): a fresh `SpanAssertion` builder with an empty schema, the base (empty)
semantic attribute list and the given expected count. -/
def SpanVerifier.toHaveSpanWithCount (count : Nat) : SpanAssertionState :=
  { schema := {}, semanticAttributes := [], expectedCount := count }

/-- Embeds `SpanVerifier.toHaveSpan` (span.verifier.ts, lines 118-120): a
convenience for `toHaveSpanWithCount(1)`. -/
def SpanVerifier.toHaveSpan : SpanAssertionState :=
  SpanVerifier.toHaveSpanWithCount 1

/-- A collector session as the builder protocol sees it: the span buffer of the
collector and the pending assertion list of the verifier. -/
structure SpanSession where
  buffer : List Span
  assertions : List SpanAssertionVerifierData
deriving DecidableEq

/-- The `assert()` call of a builder, viewed at session level: only the pending
assertion list changes. -/
def SpanSession.assertOp (s : SpanSession) (st : SpanAssertionState)
    (originalStack : String) : SpanSession :=
  { s with assertions := (SpanAssertion.assert st originalStack ⟨s.assertions⟩).assertions }

/-- The mutable state of a `BaseMetricAssertion` builder (base-metric
assertion, lines 22-35): the accumulated partial metric schema and the semantic
attribute list. -/
structure BaseMetricAssertionState where
  schema : MetricSchema
  semanticAttributes : List String
deriving DecidableEq

/-- Embeds `BaseMetricAssertion.withName` (lines 48-51). -/
def BaseMetricAssertion.withName (st : BaseMetricAssertionState)
    (name : String) : BaseMetricAssertionState :=
  { st with schema := { st.schema with name := some name } }

/-- Embeds `BaseMetricAssertion.withDescription` (lines 64-67). -/
def BaseMetricAssertion.withDescription (st : BaseMetricAssertionState)
    (description : String) : BaseMetricAssertionState :=
  { st with schema := { st.schema with description := some description } }

/-- Embeds `BaseMetricAssertion.withUnit` (lines 80-83). -/
def BaseMetricAssertion.withUnit (st : BaseMetricAssertionState)
    (unit : String) : BaseMetricAssertionState :=
  { st with schema := { st.schema with unit := some unit } }

/-- The state of a finalized metric verifier (base-metric.verifier.ts, lines
9-13): schema, semantic attributes and captured stack. -/
structure BaseMetricVerifierData where
  schema : MetricSchema
  semanticAttributes : List String
  originalStack : String
deriving DecidableEq

/-- Embeds `BaseMetricAssertion.assert` (base-metric assertion, lines 144-154):
the call stack is captured, a verifier is constructed from the accumulated
schema, semantic attribute list and captured stack, pushed onto the parent
pending list of the parent verifier, and the parent is returned. -/
def BaseMetricAssertion.assert (st : BaseMetricAssertionState) (originalStack : String)
    (assertions : List BaseMetricVerifierData) : List BaseMetricVerifierData :=
  assertions ++
    [{ schema := st.schema, semanticAttributes := st.semanticAttributes,
       originalStack := originalStack }]

/-- An attribute holding a string value. -/
def strAttr (k v : String) : Attribute :=
  { key := k, value := { stringValue := .val v } }

/-- An attribute holding an integer value. -/
def intAttr (k : String) (v : Int) : Attribute :=
  { key := k, value := { intValue := .val v } }

/-- A concrete span with the given name, kind, attributes and resource
attributes; the remaining fields take fixed innocuous values. -/
def mkSpan (name : String) (kind : SpanKind) (attrs : List Attribute)
    (resAttrs : Option (List Attribute)) : Span :=
  { traceId := "t1", spanId := "s1", name := name, kind := kind,
    startTimeUnixNano := "0", endTimeUnixNano := "1", attributes := attrs,
    droppedAttributesCount := 0, events := [], droppedEventsCount := 0,
    links := [], droppedLinksCount := 0, status := { code := .unset },
    resourceAttributes := resAttrs }

/-- A buffer of five spans: two named alpha, the first three carrying the
attribute x = 1, one named gamma. -/
def fiveSpans : List Span :=
  [ mkSpan "alpha" .server [intAttr "x" 1] none,
    mkSpan "alpha" .server [intAttr "x" 1] none,
    mkSpan "beta" .server [intAttr "x" 1] none,
    mkSpan "beta" .client [] none,
    mkSpan "gamma" .client [] none ]

/-- A verifier declared with expected count 2 whose shape (name alpha) matches
exactly 2 of `fiveSpans`. -/
def countTwoOfTwoVerifier : SpanAssertionVerifierData :=
  { model := { name := some "alpha" }, semanticAttributes := [], expectedCount := 2 }

/-- A verifier declared with expected count 2 whose shape (name gamma) matches
exactly 1 of `fiveSpans`. -/
def countTwoOfOneVerifier : SpanAssertionVerifierData :=
  { model := { name := some "gamma" }, semanticAttributes := [], expectedCount := 2 }

/-- A verifier declared with expected count 2 whose shape (attribute x = 1)
matches exactly 3 of `fiveSpans`. -/
def countTwoOfThreeVerifier : SpanAssertionVerifierData :=
  { model := { attributes := some [intAttr "x" 1] }, semanticAttributes := [], expectedCount := 2 }

/-- Helper: folding `collect` over a list of batches appends their
concatenation to the accumulator. -/
theorem collect_foldl_eq {T : Type} (batches : List (List T)) (acc : List T) :
    batches.foldl AbstractTelemetryCollector.collect acc = acc ++ batches.flatten := by
  induction batches generalizing acc with
  | nil => simp
  | cons b bs ih => simp [AbstractTelemetryCollector.collect, ih]

/-- C3: for every sequence of collect calls on a fresh collector (with no
intervening clear), retrieve returns exactly the concatenation of the batches
in call order, with intra-batch and inter-batch order preserved and no record
dropped, reordered, removed or mutated; retrieve returns the buffer as is, and
clear resets the buffer to empty. -/
theorem collector_collect_retrieve_clear {T : Type} (batches : List (List T)) (buffer : List T) :
    AbstractTelemetryCollector.retrieve
        (batches.foldl AbstractTelemetryCollector.collect ([] : List T)) = batches.flatten
    ∧ AbstractTelemetryCollector.retrieve buffer = buffer
    ∧ AbstractTelemetryCollector.clear buffer = ([] : List T) := by
  refine ⟨?_, rfl, rfl⟩
  simp [AbstractTelemetryCollector.retrieve, collect_foldl_eq]

/-- C4: the span count policy is exact: a span verifier passes a buffer exactly
when the number of buffered spans matching its shape equals its expected count;
the default count built by toHaveSpan is 1 (toHaveSpan is
toHaveSpanWithCount(1)); concretely, over a buffer of five spans, a verifier
with count 2 passes when its shape matches exactly 2 spans and fails when it
matches 1 or 3. -/
theorem spanVerifier_count_policy_exact (v : SpanAssertionVerifierData) (spans : List Span) :
    (SpanAssertionVerifier.verifyPasses v spans = true ↔
      (spans.filter fun s =>
        SpanAssertionVerifier.matchesSpan v.model v.semanticAttributes s).length = v.expectedCount)
    ∧ SpanVerifier.toHaveSpan = SpanVerifier.toHaveSpanWithCount 1
    ∧ SpanVerifier.toHaveSpan.expectedCount = 1
    ∧ fiveSpans.length = 5
    ∧ (fiveSpans.filter fun s =>
        SpanAssertionVerifier.matchesSpan countTwoOfTwoVerifier.model [] s).length = 2
    ∧ SpanAssertionVerifier.verifyPasses countTwoOfTwoVerifier fiveSpans = true
    ∧ (fiveSpans.filter fun s =>
        SpanAssertionVerifier.matchesSpan countTwoOfOneVerifier.model [] s).length = 1
    ∧ SpanAssertionVerifier.verifyPasses countTwoOfOneVerifier fiveSpans = false
    ∧ (fiveSpans.filter fun s =>
        SpanAssertionVerifier.matchesSpan countTwoOfThreeVerifier.model [] s).length = 3
    ∧ SpanAssertionVerifier.verifyPasses countTwoOfThreeVerifier fiveSpans = false := by
  refine ⟨?_, rfl, rfl, rfl, by decide, by decide, by decide, by decide, by decide, by decide⟩
  simp [SpanAssertionVerifier.verifyPasses]

/-- A histogram schema used by the at-least-one examples: name lat with an
unconstrained histogram payload. -/
def histNameSchema : MetricSchema :=
  { name := some "lat", histogram := some { dataPoints := [{}] } }

/-- A metric matching `histNameSchema`. -/
def latMetric : Metric :=
  { name := "lat", histogram := some { dataPoints := [{ count := some 7 }] } }

/-- A metric failing `histNameSchema` by name. -/
def otherMetric : Metric :=
  { name := "other", histogram := some { dataPoints := [{ count := some 7 }] } }

/-- A metric failing `histNameSchema` by carrying no histogram payload. -/
def bareMetric : Metric := { name := "lat" }

/-- Ten buffered metrics of which exactly three match `histNameSchema`. -/
def tenMetrics : List Metric :=
  [ latMetric, otherMetric, bareMetric, latMetric, otherMetric,
    bareMetric, otherMetric, latMetric, bareMetric, otherMetric ]

/-- C5: the metric count policy is at-least-one: a histogram verifier passes a
buffer exactly when at least one buffered metric matches its shape; concretely
an expectation matching 3 of 10 buffered metrics passes, and it fails only when
zero metrics match. -/
theorem metricVerifier_count_policy_at_least_one (schema : MetricSchema)
    (semanticAttributes : List String) (metrics : List Metric) :
    (HistogramVerifier.verifyPasses schema semanticAttributes metrics = true ↔
      ∃ m ∈ metrics, HistogramVerifier.matches schema semanticAttributes m = true)
    ∧ tenMetrics.length = 10
    ∧ (tenMetrics.filter fun m => HistogramVerifier.matches histNameSchema [] m).length = 3
    ∧ HistogramVerifier.verifyPasses histNameSchema [] tenMetrics = true
    ∧ HistogramVerifier.verifyPasses histNameSchema [] [otherMetric, bareMetric] = false := by
  refine ⟨?_, rfl, by decide, by decide, by decide⟩
  simp [HistogramVerifier.verifyPasses, List.length_pos_iff_exists_mem, List.mem_filter]

/-- C7: the value-match predicate does not implement the claimed
presence-by-not-undefined rule for strings: two attribute values that both
populate the string variant with the same empty string fail to match (the
string branch tests truthiness, and the empty string is falsy), while the
integer and boolean branches do match equal falsy values (0, false) because
they test `!== undefined`; a nonempty equal string matches. -/
theorem hasAttributeValue_truthiness_inconsistency :
    hasAttributeValue { stringValue := .val "" } { stringValue := .val "" } = false
    ∧ hasAttributeValue { stringValue := .val "x" } { stringValue := .val "x" } = true
    ∧ hasAttributeValue { intValue := .val 0 } { intValue := .val 0 } = true
    ∧ hasAttributeValue { boolValue := .val false } { boolValue := .val false } = true := by
  decide

/-- The metric schema whose histogram payload has `d` as its first data point,
with arbitrary remaining schema fields, data point tail and temporality: used
to state which data point constraints are in force. -/
def MetricSchema.withFirstDataPoint (base : MetricSchema) (tail : List HistogramDataPoint)
    (aggT : Option Int) (d : HistogramDataPoint) : MetricSchema :=
  { base with histogram := some { dataPoints := d :: tail, aggregationTemporality := aggT } }

/-- C10: because the histogram data point matcher tests each schema field with
JavaScript truthiness rather than presence, a constraint set to the value 0
(count, sum, flags, min or max) imposes no constraint at all: every data point
passes it exactly as if it had never been set; likewise the metric matcher
tests the schema name with truthiness, so a schema name set to the empty
string constrains nothing. -/
theorem histogram_zero_constraints_vacuous (base : MetricSchema)
    (tail : List HistogramDataPoint) (aggT : Option Int) (d : HistogramDataPoint)
    (semanticAttributes : List String) (p : DataPoint) (m : Metric) :
    HistogramVerifier.matchesDataPoint
        (base.withFirstDataPoint tail aggT { d with count := some 0 }) semanticAttributes p
      = HistogramVerifier.matchesDataPoint
        (base.withFirstDataPoint tail aggT { d with count := none }) semanticAttributes p
    ∧ HistogramVerifier.matchesDataPoint
        (base.withFirstDataPoint tail aggT { d with sum := some 0 }) semanticAttributes p
      = HistogramVerifier.matchesDataPoint
        (base.withFirstDataPoint tail aggT { d with sum := none }) semanticAttributes p
    ∧ HistogramVerifier.matchesDataPoint
        (base.withFirstDataPoint tail aggT { d with flags := some 0 }) semanticAttributes p
      = HistogramVerifier.matchesDataPoint
        (base.withFirstDataPoint tail aggT { d with flags := none }) semanticAttributes p
    ∧ HistogramVerifier.matchesDataPoint
        (base.withFirstDataPoint tail aggT { d with min := some 0 }) semanticAttributes p
      = HistogramVerifier.matchesDataPoint
        (base.withFirstDataPoint tail aggT { d with min := none }) semanticAttributes p
    ∧ HistogramVerifier.matchesDataPoint
        (base.withFirstDataPoint tail aggT { d with max := some 0 }) semanticAttributes p
      = HistogramVerifier.matchesDataPoint
        (base.withFirstDataPoint tail aggT { d with max := none }) semanticAttributes p
    ∧ HistogramVerifier.matches { base with name := some "" } semanticAttributes m
      = HistogramVerifier.matches { base with name := none } semanticAttributes m := by
  refine ⟨rfl, rfl, rfl, rfl, rfl, rfl⟩

/-- C9: every builder method only updates the accumulated partial shape,
leaving the semantic attribute list and the expected count untouched; the
terminal assert performs no evaluation of buffered data: it constructs a
verifier from the accumulated shape, semantic attribute list, expected count
and captured stack, appends exactly that one verifier to the pending list of
the parent it returns, growing the list by exactly one; at session level the
collector buffer is neither modified nor consulted by an assert call (the
resulting assertion list is the same for any two buffers).  The metric builder
terminal assert behaves the same way. -/
theorem builder_accumulates_and_assert_registers (st : SpanAssertionState)
    (mst : BaseMetricAssertionState) (n : String) (k : SpanKind) (status : SpanStatus)
    (key : String) (v : JsPrim) (stack : String) (parent : SpanVerifierState)
    (s : SpanSession) (b2 : List Span) (masserts : List BaseMetricVerifierData) :
    (SpanAssertion.withName st n
      = { st with schema := { st.schema with name := some n } })
    ∧ (SpanAssertion.withKind st k
      = { st with schema := { st.schema with kind := some k } })
    ∧ (SpanAssertion.withStatus st status
      = { st with schema := { st.schema with status := some status } })
    ∧ (SpanAssertion.withAttribute st key v
      = { st with schema := { st.schema with
          attributes := some (st.schema.attributes.getD [] ++
            [{ key := key, value := toAttributeValue v }]) } })
    ∧ (SpanAssertion.withResourceAttribute st key v
      = { st with schema := { st.schema with
          resourceAttributes := some (st.schema.resourceAttributes.getD [] ++
            [{ key := key, value := toAttributeValue v }]) } })
    ∧ ((SpanAssertion.withName st n).semanticAttributes = st.semanticAttributes)
    ∧ ((SpanAssertion.withName st n).expectedCount = st.expectedCount)
    ∧ ((SpanAssertion.withAttribute st key v).semanticAttributes = st.semanticAttributes)
    ∧ ((SpanAssertion.withAttribute st key v).expectedCount = st.expectedCount)
    ∧ ((SpanAssertion.assert st stack parent).assertions = parent.assertions ++
        [{ model := st.schema, semanticAttributes := st.semanticAttributes,
           expectedCount := st.expectedCount, originalStack := some stack }])
    ∧ ((SpanAssertion.assert st stack parent).assertions.length
        = parent.assertions.length + 1)
    ∧ ((SpanSession.assertOp s st stack).buffer = s.buffer)
    ∧ ((SpanSession.assertOp { buffer := b2, assertions := s.assertions } st stack).assertions
        = (SpanSession.assertOp s st stack).assertions)
    ∧ (BaseMetricAssertion.assert mst stack masserts = masserts ++
        [{ schema := mst.schema, semanticAttributes := mst.semanticAttributes,
           originalStack := stack }])
    ∧ ((BaseMetricAssertion.assert mst stack masserts).length = masserts.length + 1) := by
  refine ⟨rfl, rfl, rfl, rfl, rfl, rfl, rfl, rfl, rfl, rfl, ?_, rfl, rfl, rfl, ?_⟩
  · simp [SpanAssertion.assert]
  · simp [BaseMetricAssertion.assert]

/-- Helper: on a schema that only constrains attributes, the span matcher
reduces to the attribute check. -/
theorem matchesSpan_attributes_only (attrs : List Attribute) (sp : Span) :
    SpanAssertionVerifier.matchesSpan { attributes := some attrs } [] sp
      = !(attrs.any fun a => ! SpanAssertionVerifier.hasAttr sp a) := by
  show (if (attrs.any fun a => ! SpanAssertionVerifier.hasAttr sp a) then false else true) = _
  cases attrs.any fun a => ! SpanAssertionVerifier.hasAttr sp a <;> rfl

/-- Helper: on a schema that only constrains resource attributes, the span
matcher reduces to the resource attribute check. -/
theorem matchesSpan_resourceAttributes_only (attrs : List Attribute) (sp : Span) :
    SpanAssertionVerifier.matchesSpan { resourceAttributes := some attrs } [] sp
      = !(attrs.any fun a => ! SpanAssertionVerifier.hasResourceAttr sp a) := by
  show (if (attrs.any fun a => ! SpanAssertionVerifier.hasResourceAttr sp a) then false else true) = _
  cases attrs.any fun a => ! SpanAssertionVerifier.hasResourceAttr sp a <;> rfl

/-- Helper: the resource attribute lookup is the attribute lookup on the
(defaulted) resource attribute list. -/
theorem hasResourceAttr_eq_getD (sp : Span) (a : Attribute) :
    SpanAssertionVerifier.hasResourceAttr sp a
      = (sp.resourceAttributes.getD []).any fun attr =>
          decide (attr.key = a.key) && hasAttributeValue attr.value a.value := by
  cases h : sp.resourceAttributes <;> simp [SpanAssertionVerifier.hasResourceAttr, h]

/-- A record with attributes a = 1, b = 2, c = 3, as in the specification
example. -/
def abcSpan : Span :=
  mkSpan "rec" .internal [intAttr "a" 1, intAttr "b" 2, intAttr "c" 3] none

/-- C6: attribute matching is existential over attribute lists: a span matches
a schema attribute (or resource attribute) list exactly when, for every
attribute listed in the schema, the corresponding span list contains at least
one attribute with the same key and a matching value; extra attributes on the
span never prevent a match (matching is preserved when the span attribute list
is extended); concretely a record with attributes a = 1, b = 2, c = 3 matches
a schema requiring a = 1. -/
theorem attribute_matching_existential (attrs extra : List Attribute) (sp : Span) :
    (SpanAssertionVerifier.matchesSpan { attributes := some attrs } [] sp = true ↔
      ∀ a ∈ attrs, ∃ b ∈ sp.attributes,
        b.key = a.key ∧ hasAttributeValue b.value a.value = true)
    ∧ (SpanAssertionVerifier.matchesSpan { resourceAttributes := some attrs } [] sp = true ↔
      ∀ a ∈ attrs, ∃ b ∈ sp.resourceAttributes.getD [],
        b.key = a.key ∧ hasAttributeValue b.value a.value = true)
    ∧ (SpanAssertionVerifier.matchesSpan { attributes := some attrs } [] sp = true →
      SpanAssertionVerifier.matchesSpan { attributes := some attrs } []
        { sp with attributes := sp.attributes ++ extra } = true)
    ∧ SpanAssertionVerifier.matchesSpan { attributes := some [intAttr "a" 1] } [] abcSpan
      = true := by
  have hchar : ∀ (sp2 : Span),
      SpanAssertionVerifier.matchesSpan { attributes := some attrs } [] sp2 = true ↔
        ∀ a ∈ attrs, ∃ b ∈ sp2.attributes,
          b.key = a.key ∧ hasAttributeValue b.value a.value = true := by
    intro sp2
    rw [matchesSpan_attributes_only]
    simp [SpanAssertionVerifier.hasAttr, List.any_eq_true]
  refine ⟨hchar sp, ?_, ?_, by decide⟩
  · rw [matchesSpan_resourceAttributes_only]
    simp [hasResourceAttr_eq_getD, List.any_eq_true]
  · intro h
    refine (hchar _).mpr ?_
    intro a ha
    obtain ⟨b, hb, hkey, hval⟩ := (hchar sp).mp h a ha
    exact ⟨b, by simpa using List.mem_append_left extra hb, hkey, hval⟩

/-- C6 witness: the monotonicity consequence at a concrete input: the record
with attributes a = 1, b = 2, c = 3 extended by one more attribute still
matches the schema requiring a = 1. -/
theorem attribute_matching_existential_witness :
    SpanAssertionVerifier.matchesSpan { attributes := some [intAttr "a" 1] } []
      { abcSpan with attributes := abcSpan.attributes ++ [intAttr "d" 4] } = true :=
  (attribute_matching_existential [intAttr "a" 1] [intAttr "d" 4] abcSpan).2.2.1 (by decide)

/-- A resource attribute used by the C8 example. -/
def svcAttr : Attribute := strAttr "service.name" "app"

/-- A histogram schema that also sets resource attributes (as
`withResourceAttribute` would, allocating a fresh array, here with identity 0). -/
def resHistSchema : MetricSchema :=
  { histogram := some { dataPoints := [{}] },
    resourceAttributes := some { refId := 0, elems := [svcAttr] } }

/-- A metric with a histogram payload whose data point satisfies every schema
constraint, and whose resource attribute array (a distinct decoded object,
identity 1) contains the schema resource attribute. -/
def resHistMetric : Metric :=
  { name := "m", histogram := some { dataPoints := [{ count := some 3 }] },
    resourceAttributes := some { refId := 1, elems := [svcAttr] } }

/-- C8 counterexample: the claim fails on the code.  For `resHistSchema` and
`resHistMetric` the metric carries the histogram payload, one of its data
points satisfies every data point constraint of the schema, and every schema
resource attribute is present on the metric under the existential attribute
rule — yet `matches` returns false, because the schema resource attribute list
is compared to the metric one with strict inequality (object identity), not
with the existential rule. -/
theorem metricMatches_resourceAttributes_counterexample :
    HistogramVerifier.matches resHistSchema [] resHistMetric = false
    ∧ resHistMetric.histogram.isSome = true
    ∧ ((resHistMetric.histogram.getD { dataPoints := [] }).dataPoints.any fun dp =>
        HistogramVerifier.matchesDataPoint resHistSchema [] (DataPoint.histogram dp)) = true
    ∧ ((resHistSchema.resourceAttributes.getD { refId := 0, elems := [] }).elems.all fun a =>
        hasAttribute ((resHistMetric.resourceAttributes.getD
          { refId := 0, elems := [] }).elems) a) = true := by
  decide

/-- The amended C8 matching rule, written from the corrected claim: for a
schema with the histogram payload set (and no gauge payload, which would take
precedence), a metric matches exactly when the name, description and unit
constraints pass under truthiness, the schema resource attribute array — if
set — is the very same array object as the metric one (reference equality; the
existential resource attribute rule of the claim is never applied on this
path), the metric carries a histogram payload, and at least one of its data
points satisfies the data point constraints. -/
def HistogramVerifier.matchesHistogramSchemaSpec (schema : MetricSchema)
    (semanticAttributes : List String) (metric : Metric) : Bool :=
  (match schema.name with
    | some n => decide (n = "") || decide (metric.name = n)
    | none => true)
  && (match schema.description with
    | some d => decide (d = "") || decide (metric.description = some d)
    | none => true)
  && (match schema.unit with
    | some u => decide (u = "") || decide (metric.unit = some u)
    | none => true)
  && (match schema.resourceAttributes, metric.resourceAttributes with
    | some r, some mr => decide (mr.refId = r.refId)
    | some _, none => false
    | none, _ => true)
  && (match metric.histogram with
    | some h => h.dataPoints.any fun dp =>
        HistogramVerifier.matchesDataPoint schema semanticAttributes (DataPoint.histogram dp)
    | none => false)

/-- Helper: an early-return guard composes as a conjunction. -/
theorem if_false_else (c x : Bool) : (if c then false else x) = (!c && x) := by
  cases c <;> simp

/-- Helper: negation of the truthiness-guarded string mismatch test. -/
theorem not_strGuard_eq (o : Option String) (s : String) :
    (!(match o with
       | some n => decide (n ≠ "") && decide (s ≠ n)
       | none => false))
      = (match o with
         | some n => decide (n = "") || decide (s = n)
         | none => true) := by
  cases o with
  | none => rfl
  | some n => simp [decide_not, Bool.not_and]

/-- Helper: negation of the truthiness-guarded optional string mismatch test. -/
theorem not_optStrGuard_eq (o x : Option String) :
    (!(match o with
       | some d => decide (d ≠ "") && decide (x ≠ some d)
       | none => false))
      = (match o with
         | some d => decide (d = "") || decide (x = some d)
         | none => true) := by
  cases o with
  | none => rfl
  | some d => simp [decide_not, Bool.not_and]

/-- Helper: negation of the strict-inequality resource attribute guard. -/
theorem not_resGuard_eq (o m : Option (ArrRef Attribute)) :
    (!(o.isSome && arrStrictNe m o))
      = (match o, m with
         | some r, some mr => decide (mr.refId = r.refId)
         | some _, none => false
         | none, _ => true) := by
  cases o <;> cases m <;> simp [arrStrictNe, decide_not]

/-- C8 amended: for a schema with the histogram payload set and no gauge
payload, the metric matcher agrees with the amended rule
`matchesHistogramSchemaSpec`: same payload kind and at least one data point
satisfying the constraints, but with the schema resource attributes — when
set — required to be the identical array object rather than existentially
present. -/
theorem metricMatches_histogram_amended (schema : MetricSchema)
    (semanticAttributes : List String) (metric : Metric)
    (hg : schema.gauge = none) (hh : schema.histogram.isSome = true) :
    HistogramVerifier.matches schema semanticAttributes metric
      = HistogramVerifier.matchesHistogramSchemaSpec schema semanticAttributes metric := by
  obtain ⟨hobj, hEq⟩ := Option.isSome_iff_exists.mp hh
  unfold HistogramVerifier.matches BaseMetricVerifier.matches
    HistogramVerifier.matchesHistogramSchemaSpec
  rw [hg, hEq]
  cases hm : metric.histogram with
  | none =>
    simp [if_false_else]
  | some mh =>
    simp only [Option.isSome_none, Option.isSome_some, Bool.not_true, Bool.not_false,
      Bool.false_and, Bool.true_and, Bool.and_false, Bool.and_true, Option.getD_some,
      if_false, Bool.false_eq_true, if_true]
    simp only [if_false_else]
    simp only [Bool.and_assoc]
    cases schema.name <;> cases schema.description <;> cases schema.unit <;>
      cases schema.resourceAttributes <;> cases metric.resourceAttributes <;>
      simp [arrStrictNe, decide_not, Bool.not_and, Bool.not_not]

/-- C8 amended witness: the amended equation holds at the concrete
counterexample schema and metric (both sides evaluate to false there). -/
theorem metricMatches_histogram_amended_witness :
    resHistSchema.gauge = none
    ∧ resHistSchema.histogram.isSome = true
    ∧ HistogramVerifier.matches resHistSchema [] resHistMetric
        = HistogramVerifier.matchesHistogramSchemaSpec resHistSchema [] resHistMetric :=
  ⟨rfl, rfl, metricMatches_histogram_amended resHistSchema [] resHistMetric rfl rfl⟩

/-- Helper: the buffer seen by the immediate evaluation is the initial buffer. -/
theorem bufferAt_zero {T : Type} (initial : List T) (events : List (WaitEvent T)) :
    Collector.bufferAt initial events 0 = initial := by
  simp [Collector.bufferAt]

/-- Helper: stepping the wait past one event shifts the evaluation index. -/
theorem bufferAt_succ_cons {T : Type} (initial : List T) (e : WaitEvent T)
    (rest : List (WaitEvent T)) (k : Nat) :
    Collector.bufferAt initial (e :: rest) (k + 1)
      = Collector.bufferAt (initial ++ e.batch) rest k := by
  simp [Collector.bufferAt, List.take_succ_cons]

/-- Helper: the first subscription evaluation runs at the time of the first
event. -/
theorem evalTime_one_cons {T : Type} (e : WaitEvent T) (rest : List (WaitEvent T)) :
    Collector.evalTime (e :: rest) 1 = e.time := rfl

/-- Helper: evaluation times shift with the event list. -/
theorem evalTime_succ_succ_cons {T : Type} (e : WaitEvent T) (rest : List (WaitEvent T))
    (k : Nat) :
    Collector.evalTime (e :: rest) (k + 2) = Collector.evalTime rest (k + 1) := by
  simp [Collector.evalTime]

/-- Helper: if evaluations 1 to i of the subscription loop fail and evaluation
i + 1 passes, the loop resolves with the buffer and time of that evaluation,
whatever failure is currently remembered. -/
theorem waitLoop_resolves {T F : Type} (check : List T → EvalOutcome F) (timeoutMs : Nat) :
    ∀ (events : List (WaitEvent T)) (buffer : List T) (lf : Option F) (i : Nat),
      i + 1 ≤ events.length →
      (∀ j ∈ List.range (i + 1), 1 ≤ j →
        EvalOutcome.isPass (check (Collector.bufferAt buffer events j)) = false) →
      EvalOutcome.isPass (check (Collector.bufferAt buffer events (i + 1))) = true →
      Collector.waitLoop check timeoutMs buffer lf events
        = WaitResult.resolved (Collector.bufferAt buffer events (i + 1))
            (Collector.evalTime events (i + 1)) := by
  intro events
  induction events with
  | nil =>
    intro buffer lf i hlen _ _
    simp at hlen
  | cons e rest ih =>
    intro buffer lf i hlen hfail hpass
    cases i with
    | zero =>
      have hb : Collector.bufferAt buffer (e :: rest) 1 = buffer ++ e.batch := by
        rw [bufferAt_succ_cons, bufferAt_zero]
      rw [hb] at hpass
      cases hc : check (buffer ++ e.batch) with
      | pass =>
        simp only [Collector.waitLoop, hc]
        rw [hb, evalTime_one_cons]
      | failAssertion f => rw [hc] at hpass; simp [EvalOutcome.isPass] at hpass
      | failOther => rw [hc] at hpass; simp [EvalOutcome.isPass] at hpass
    | succ k =>
      have h1 : EvalOutcome.isPass (check (buffer ++ e.batch)) = false := by
        have := hfail 1 (by simp [List.mem_range]) (le_refl 1)
        rw [bufferAt_succ_cons, bufferAt_zero] at this
        exact this
      have hlen2 : k + 1 ≤ rest.length := by
        simp [List.length_cons] at hlen
        omega
      have hfail2 : ∀ j ∈ List.range (k + 1), 1 ≤ j →
          EvalOutcome.isPass (check (Collector.bufferAt (buffer ++ e.batch) rest j)) = false := by
        intro j hj hj1
        have hj2 : j + 1 ∈ List.range (k + 2) := by
          simp [List.mem_range] at hj ⊢
          omega
        have := hfail (j + 1) hj2 (by omega)
        rw [bufferAt_succ_cons] at this
        exact this
      have hpass2 : EvalOutcome.isPass
          (check (Collector.bufferAt (buffer ++ e.batch) rest (k + 1))) = true := by
        rw [← bufferAt_succ_cons]
        exact hpass
      cases hc : check (buffer ++ e.batch) with
      | pass => rw [hc] at h1; simp [EvalOutcome.isPass] at h1
      | failAssertion f =>
        simp only [Collector.waitLoop, hc]
        rw [ih (buffer ++ e.batch) (some f) k hlen2 hfail2 hpass2,
          bufferAt_succ_cons, evalTime_succ_succ_cons]
      | failOther =>
        simp only [Collector.waitLoop, hc]
        rw [ih (buffer ++ e.batch) lf k hlen2 hfail2 hpass2,
          bufferAt_succ_cons, evalTime_succ_succ_cons]

/-- Helper: the wait resolves at the first passing evaluation: if evaluations
0 to i - 1 fail and evaluation i passes, the promise resolves with the buffer
and time of evaluation i. -/
theorem waitForAssertions_first_pass {T F : Type} (check : List T → EvalOutcome F)
    (initial : List T) (events : List (WaitEvent T)) (timeoutMs : Nat) (i : Nat)
    (hlen : i ≤ events.length)
    (hfail : ∀ j ∈ List.range i,
      EvalOutcome.isPass (check (Collector.bufferAt initial events j)) = false)
    (hpass : EvalOutcome.isPass (check (Collector.bufferAt initial events i)) = true) :
    Collector.waitForAssertions check initial events timeoutMs
      = WaitResult.resolved (Collector.bufferAt initial events i)
          (Collector.evalTime events i) := by
  cases i with
  | zero =>
    rw [bufferAt_zero] at hpass
    cases hc : check initial with
    | pass =>
      simp only [Collector.waitForAssertions, hc]
      rw [bufferAt_zero]
      rfl
    | failAssertion f => rw [hc] at hpass; simp [EvalOutcome.isPass] at hpass
    | failOther => rw [hc] at hpass; simp [EvalOutcome.isPass] at hpass
  | succ k =>
    have h0 : EvalOutcome.isPass (check initial) = false := by
      have := hfail 0 (by simp [List.mem_range])
      rw [bufferAt_zero] at this
      exact this
    have hfail2 : ∀ j ∈ List.range (k + 1), 1 ≤ j →
        EvalOutcome.isPass (check (Collector.bufferAt initial events j)) = false :=
      fun j hj _ => hfail j hj
    cases hc : check initial with
    | pass => rw [hc] at h0; simp [EvalOutcome.isPass] at h0
    | failAssertion f =>
      simp only [Collector.waitForAssertions, hc]
      exact waitLoop_resolves check timeoutMs events initial (some f) k hlen hfail2 hpass
    | failOther =>
      simp only [Collector.waitForAssertions, hc]
      exact waitLoop_resolves check timeoutMs events initial none k hlen hfail2 hpass

/-- Helper: the composite assertion function passes exactly when every pending
verifier passes. -/
theorem runAssertions_isPass_iff (assertions : List SpanAssertionVerifierData)
    (spans : List Span) :
    EvalOutcome.isPass (SpanVerifier.runAssertions assertions spans) = true ↔
      ∀ a ∈ assertions, SpanAssertionVerifier.verifyPasses a spans = true := by
  unfold SpanVerifier.runAssertions
  cases hf : assertions.find? fun a => ! SpanAssertionVerifier.verifyPasses a spans with
  | none =>
    simp only [EvalOutcome.isPass, true_iff]
    intro a ha
    have := List.find?_eq_none.mp hf a ha
    simpa using this
  | some a =>
    simp only [EvalOutcome.isPass, Bool.false_eq_true, false_iff]
    intro hall
    have hmem := List.mem_of_find?_eq_some hf
    have hpred := List.find?_some hf
    rw [hall a hmem] at hpred
    simp at hpred

/-- C1: for the wait-until-satisfied coordinator driving assertAll, all
registered verifiers are first evaluated immediately against the current buffer
(evaluation 0, at time 0) and re-evaluated against the then-current buffer on
every subsequent append notification; at the first evaluation i at which every
verifier passes — all earlier ones having failed — the coordinator resolves
with that buffer at that evaluation time, ignoring any later events
(unsubscription), and since every notification in the trace precedes the
timeout, the promise resolves strictly before the configured timeout rather
than waiting for it. -/
theorem assertAll_reactive_resolution (assertions : List SpanAssertionVerifierData)
    (initial : List Span) (events : List (WaitEvent Span)) (timeoutMs : Nat) (i : Nat)
    (hto : 0 < timeoutMs)
    (ht : ∀ e ∈ events, e.time < timeoutMs)
    (hlen : i ≤ events.length)
    (hfail : ∀ j ∈ List.range i,
      EvalOutcome.isPass (SpanVerifier.runAssertions assertions
        (Collector.bufferAt initial events j)) = false)
    (hpass : ∀ a ∈ assertions,
      SpanAssertionVerifier.verifyPasses a (Collector.bufferAt initial events i) = true) :
    Collector.waitForAssertions (SpanVerifier.runAssertions assertions) initial events timeoutMs
      = WaitResult.resolved (Collector.bufferAt initial events i)
          (Collector.evalTime events i)
    ∧ Collector.evalTime events i < timeoutMs := by
  have hp := (runAssertions_isPass_iff assertions (Collector.bufferAt initial events i)).mpr hpass
  refine ⟨waitForAssertions_first_pass _ initial events timeoutMs i hlen hfail hp, ?_⟩
  cases i with
  | zero => simpa [Collector.evalTime] using hto
  | succ k =>
    have hk : k < events.length := by omega
    have he : events.get? k = some (events.get ⟨k, hk⟩) := List.get?_eq_get hk
    have hmem : events.get ⟨k, hk⟩ ∈ events := List.get_mem events k hk
    simp only [Collector.evalTime, he, Option.map_some, Option.getD_some]
    exact ht _ hmem

/-- A verifier expecting exactly one span named alpha, used by the C1 witness. -/
def alphaOnceVerifier : SpanAssertionVerifierData :=
  { model := { name := some "alpha" }, semanticAttributes := [], expectedCount := 1 }

/-- The event trace of the C1 witness: one batch with a matching span arrives
5 milliseconds into the wait. -/
def alphaEvents : List (WaitEvent Span) :=
  [{ time := 5, batch := [mkSpan "alpha" .server [intAttr "x" 1] none] }]

/-- C1 witness: with an empty starting buffer, a verifier expecting one alpha
span, and a matching batch arriving at 5 milliseconds, the promise resolves at
that event, well before the 30000 millisecond timeout. -/
theorem assertAll_reactive_resolution_witness :
    Collector.waitForAssertions (SpanVerifier.runAssertions [alphaOnceVerifier])
        ([] : List Span) alphaEvents 30000
      = WaitResult.resolved (Collector.bufferAt ([] : List Span) alphaEvents 1)
          (Collector.evalTime alphaEvents 1)
    ∧ Collector.evalTime alphaEvents 1 < 30000 :=
  assertAll_reactive_resolution [alphaOnceVerifier] [] alphaEvents 30000 1
    (by decide) (by decide) (by decide) (by decide) (by decide)

/-- Helper: if every subscription evaluation fails, the loop ends at the
timeout, rejecting with the failure remembered after the whole trace when
there is one and with the generic timeout message over the final buffer
otherwise. -/
theorem waitLoop_timeout {T F : Type} (check : List T → EvalOutcome F) (timeoutMs : Nat) :
    ∀ (events : List (WaitEvent T)) (buffer : List T) (lf : Option F),
      (∀ j ∈ List.range (events.length + 1), 1 ≤ j →
        EvalOutcome.isPass (check (Collector.bufferAt buffer events j)) = false) →
      Collector.waitLoop check timeoutMs buffer lf events
        = (match Collector.lastCapturedFailure check lf buffer events with
           | some f => WaitResult.rejectedAssertion f timeoutMs
           | none => WaitResult.rejectedTimeout
               (Collector.timeoutMessage timeoutMs
                 (Collector.bufferAt buffer events events.length).length) timeoutMs) := by
  intro events
  induction events with
  | nil =>
    intro buffer lf _
    simp only [Collector.waitLoop, Collector.lastCapturedFailure, List.length_nil]
    rw [bufferAt_zero]
  | cons e rest ih =>
    intro buffer lf hfail
    have h1 : EvalOutcome.isPass (check (buffer ++ e.batch)) = false := by
      have := hfail 1 (by simp [List.mem_range]) (le_refl 1)
      rw [bufferAt_succ_cons, bufferAt_zero] at this
      exact this
    have hfail2 : ∀ j ∈ List.range (rest.length + 1), 1 ≤ j →
        EvalOutcome.isPass (check (Collector.bufferAt (buffer ++ e.batch) rest j)) = false := by
      intro j hj hj1
      have hj2 : j + 1 ∈ List.range ((e :: rest).length + 1) := by
        simp [List.mem_range] at hj ⊢
        omega
      have := hfail (j + 1) hj2 (by omega)
      rw [bufferAt_succ_cons] at this
      exact this
    have hbuf : Collector.bufferAt buffer (e :: rest) (e :: rest).length
        = Collector.bufferAt (buffer ++ e.batch) rest rest.length := by
      simp only [List.length_cons]
      exact bufferAt_succ_cons buffer e rest rest.length
    cases hc : check (buffer ++ e.batch) with
    | pass => rw [hc] at h1; simp [EvalOutcome.isPass] at h1
    | failAssertion f =>
      simp only [Collector.waitLoop, hc]
      rw [ih (buffer ++ e.batch) (some f) hfail2]
      simp only [Collector.lastCapturedFailure, hc, hbuf]
    | failOther =>
      simp only [Collector.waitLoop, hc]
      rw [ih (buffer ++ e.batch) lf hfail2]
      simp only [Collector.lastCapturedFailure, hc, hbuf]

/-- C2: if no evaluation fully succeeds before the timeout — neither the
immediate one nor any triggered by a pre-timeout notification — the coordinator
rejects: with the most recently captured assertion failure when at least one
evaluation threw an AssertionError, and otherwise with the generic timeout
error whose message reports the configured timeout and the number of records
then buffered; in either case the promise settles exactly at the configured
timeout, never earlier. -/
theorem waitForAssertions_timeout_rejection {T F : Type} (check : List T → EvalOutcome F)
    (initial : List T) (events : List (WaitEvent T)) (timeoutMs : Nat)
    (hfail : ∀ k ∈ List.range (events.length + 1),
      EvalOutcome.isPass (check (Collector.bufferAt initial events k)) = false) :
    Collector.waitForAssertions check initial events timeoutMs
      = (match Collector.lastFailure check initial events with
         | some f => WaitResult.rejectedAssertion f timeoutMs
         | none => WaitResult.rejectedTimeout
             (Collector.timeoutMessage timeoutMs
               (Collector.bufferAt initial events events.length).length) timeoutMs)
    ∧ (Collector.waitForAssertions check initial events timeoutMs).endTime = timeoutMs := by
  have h0 : EvalOutcome.isPass (check initial) = false := by
    have := hfail 0 (by simp [List.mem_range])
    rw [bufferAt_zero] at this
    exact this
  have hfail2 : ∀ j ∈ List.range (events.length + 1), 1 ≤ j →
      EvalOutcome.isPass (check (Collector.bufferAt initial events j)) = false :=
    fun j hj _ => hfail j hj
  have hmain : Collector.waitForAssertions check initial events timeoutMs
      = (match Collector.lastFailure check initial events with
         | some f => WaitResult.rejectedAssertion f timeoutMs
         | none => WaitResult.rejectedTimeout
             (Collector.timeoutMessage timeoutMs
               (Collector.bufferAt initial events events.length).length) timeoutMs) := by
    cases hc : check initial with
    | pass => rw [hc] at h0; simp [EvalOutcome.isPass] at h0
    | failAssertion f =>
      simp only [Collector.waitForAssertions, hc]
      rw [waitLoop_timeout check timeoutMs events initial (some f) hfail2]
      simp only [Collector.lastFailure, hc]
    | failOther =>
      simp only [Collector.waitForAssertions, hc]
      rw [waitLoop_timeout check timeoutMs events initial none hfail2]
      simp only [Collector.lastFailure, hc]
  refine ⟨hmain, ?_⟩
  rw [hmain]
  cases Collector.lastFailure check initial events <;> rfl

/-- The assertion function of the C2 witness: it always throws an error that is
not an AssertionError, so the coordinator never captures a failure. -/
def alwaysOtherCheck : List Nat → EvalOutcome String :=
  fun _ => EvalOutcome.failOther

/-- The event trace of the C2 witness: one non-satisfying batch arrives at 10
milliseconds. -/
def oneBatchEvents : List (WaitEvent Nat) :=
  [{ time := 10, batch := [7] }]

/-- C2 witness: with a check that never passes and never produces an
AssertionError, the wait rejects at the timeout with the generic message over
the one buffered record. -/
theorem waitForAssertions_timeout_rejection_witness :
    Collector.waitForAssertions alwaysOtherCheck ([] : List Nat) oneBatchEvents 30000
      = (match Collector.lastFailure alwaysOtherCheck ([] : List Nat) oneBatchEvents with
         | some f => WaitResult.rejectedAssertion f 30000
         | none => WaitResult.rejectedTimeout
             (Collector.timeoutMessage 30000
               (Collector.bufferAt ([] : List Nat) oneBatchEvents oneBatchEvents.length).length)
             30000)
    ∧ (Collector.waitForAssertions alwaysOtherCheck ([] : List Nat) oneBatchEvents 30000).endTime
        = 30000 :=
  waitForAssertions_timeout_rejection alwaysOtherCheck [] oneBatchEvents 30000 (by decide)
